import Mathlib

/-!
# LEDATools field-report engine: a shallow embedding

This file embeds the column-profiling and report-assembly engine of the
LEDATools repository (`src/tools/field_report.py` together with the loader
contract in `src/helpers/file_io.py`) into Lean 4, and proves or refutes the
frozen specification claims about it.

Modelling conventions:
* a pandas `Series` is a storage dtype together with an ordered list of cell
  values; a missing value (NaN/None) is `Value.null`;
* a pandas `DataFrame` is an ordered list of named columns (`Table`);
* Python exceptions are modelled with `Except String`; a library call that can
  either return a value or raise is an `Option`-valued oracle stored in the
  file description (`none` models "this call raises");
* `pandas.Series.value_counts` is modelled as the stable descending-frequency
  ranking of the distinct values in first-occurrence order, which is the
  documented behaviour of pandas (ties are broken by order of appearance).
-/

/-- A scalar cell of a loaded table.  `null` models a missing value
(NaN/None); `str`/`int` model textual and integral cells. -/
inductive Value where
  | null : Value
  | str (s : String) : Value
  | int (n : Int) : Value
deriving DecidableEq, Repr

/-- Python's `str()` view of a cell, as produced by `astype(str)` on the
non-null part of a column. -/
def pyStr : Value → String
  | .null => "nan"
  | .str s => s
  | .int n => toString n

/-- Model of Python's `str.lower()`: lower-case every character.  (Defined
over the character list so that it evaluates inside the kernel.) -/
def pyLower (s : String) : String :=
  ⟨s.data.map Char.toLower⟩

/-- Model of Python's `str.strip()`: drop whitespace from both ends. -/
def pyStrip (s : String) : String :=
  ⟨((s.data.dropWhile Char.isWhitespace).reverse.dropWhile Char.isWhitespace).reverse⟩

/-- Model of Python's `str.startswith(p)`. -/
def pyStartsWith (s p : String) : Bool :=
  p.data.isPrefixOf s.data

/-- The storage dtype of a pandas column, as seen by
`pd.api.types.is_numeric_dtype` and `pd.api.types.is_datetime64_any_dtype`. -/
inductive Dtype where
  | numeric : Dtype
  | datetime : Dtype
  | object : Dtype
deriving DecidableEq, Repr

/-- A pandas `Series`: a storage dtype plus the ordered cell values. -/
structure Series where
  dtype : Dtype
  values : List Value
deriving DecidableEq, Repr

/-- A pandas `DataFrame`: ordered, named columns. -/
def Table := List (String × Series)

/-- Distinct elements of a list in order of first occurrence (the order in
which a pandas hashtable enumerates distinct values); `seen` accumulates the
elements already emitted. -/
def uniqueAux {α : Type} [DecidableEq α] (seen : List α) : List α → List α
  | [] => []
  | v :: t => if v ∈ seen then uniqueAux seen t else v :: uniqueAux (v :: seen) t

/-- Distinct elements in order of first occurrence. -/
def uniqueInOrder {α : Type} [DecidableEq α] (l : List α) : List α :=
  uniqueAux [] l

/-- A ranking entry for `value_counts`: (first-occurrence rank, value,
frequency). -/
abbrev RankEntry := Nat × Value × Nat

/-- The ranking order of `value_counts`: strictly more frequent first; on
equal frequency, earlier first occurrence first. -/
def rankLE (a b : RankEntry) : Prop :=
  b.2.2 < a.2.2 ∨ (a.2.2 = b.2.2 ∧ a.1 ≤ b.1)

instance : DecidableRel rankLE := fun a b =>
  inferInstanceAs (Decidable (b.2.2 < a.2.2 ∨ (a.2.2 = b.2.2 ∧ a.1 ≤ b.1)))

instance : IsTotal RankEntry rankLE :=
  ⟨fun a b => by unfold rankLE; omega⟩

instance : IsTrans RankEntry rankLE :=
  ⟨fun a b c hab hbc => by unfold rankLE at *; omega⟩

/-- The distinct values of `l` in first-occurrence order, tagged with their
rank position and frequency. -/
def rankedEntries (l : List Value) : List RankEntry :=
  (uniqueInOrder l).enum.map (fun p => (p.1, p.2, l.count p.2))

/-- Model of `pandas.Series.value_counts()` on the non-null values: distinct
values sorted by descending frequency, ties kept in first-occurrence order. -/
def value_counts (l : List Value) : List RankEntry :=
  List.insertionSort rankLE (rankedEntries l)

/-- Python's `round(x, 2)` on an exact fraction: round to the nearest
hundredth.  (The tie-breaking rule of `round` is immaterial to every claim
proved below, which only uses bounds and exact-zero facts.) -/
def round2 (q : ℚ) : ℚ :=
  ((round (q * 100) : ℤ) : ℚ) / 100

/-- The metric bundle produced by `profile_column` (the keys
`UniqueValuesCount`, `Top5UniqueValues`, `ValueCount`, `EmptyValues%`,
`InferredType`, `MaxCharacterLength` of the returned dict). -/
structure ColumnProfile where
  distinctCount : Nat
  top5 : String
  valueCount : Nat
  emptyValues : ℚ
  inferredType : String
  maxCharLength : Nat
deriving DecidableEq, Repr

/-- The three boolean vocabularies of `profile_column`. -/
def boolean_sets : List (List String) :=
  [["true", "false"], ["1", "0"], ["yes", "no"]]

/-- Embedding of `profile_column` (src/tools/field_report.py, lines 51-104).

* `total = len(series)`; `non_null_series = series.dropna()`;
* top-5: `value_counts().head(5).index.astype(str).tolist()` joined by `"; "`;
* normalized strings: `astype(str).str.strip().str.lower()`; classify Boolean
  when the set of distinct normalized strings is a subset of one of the
  vocabularies, else fall back to the storage dtype;
* max char length: `astype(str).str.len().max()` when any non-null value
  exists, else `0`;
* empty fraction: `round(null_count / total, 2)` when `total > 0`, else `0`. -/
def profile_column (series : Series) : ColumnProfile :=
  let total := series.values.length
  let non_null_series := series.values.filter (fun v => v ≠ Value.null)
  let null_count := total - non_null_series.length
  let top_values := ((value_counts non_null_series).take 5).map (fun e => pyStr e.2.1)
  let top5 := String.intercalate "; " top_values
  let normalized := non_null_series.map (fun v => pyLower (pyStrip (pyStr v)))
  let inferred_type :=
    if boolean_sets.any (fun valid => (uniqueInOrder normalized).all (fun x => valid.contains x)) then
      "Boolean"
    else if series.dtype = Dtype.numeric then
      "Numeric"
    else if series.dtype = Dtype.datetime then
      "Date"
    else
      "Text"
  let max_length :=
    if non_null_series.length > 0 then
      (non_null_series.map (fun v => (pyStr v).length)).foldl max 0
    else 0
  { distinctCount := (uniqueInOrder non_null_series).length
    top5 := top5
    valueCount := non_null_series.length
    emptyValues := if total > 0 then round2 ((null_count : ℚ) / (total : ℚ)) else 0
    inferredType := inferred_type
    maxCharLength := max_length }

/-! ## Column-name constants (src/helpers/constants.py) -/

def FIELD_COL_FILE : String := "File"
def FIELD_COL_COLUMN : String := "FileColumn"
def FIELD_COL_INFERRED_TYPE : String := "InferredType"
def FIELD_COL_DISTINCT_COUNT : String := "UniqueValuesCount"
def FIELD_COL_VALUE_COUNT : String := "ValueCount"
def FIELD_COL_EMPTY_VALUES : String := "EmptyValues%"
def FIELD_COL_TOP5_DISTINCT : String := "Top5UniqueValues"
def FIELD_COL_MAX_CHAR_LENGTH : String := "MaxCharacterLength"
def FIELD_COL_IMPORT : String := "Import"
def FIELD_COL_FLAG : String := "Flag"

/-- `EXCEL_EXTENSIONS` from src/helpers/constants.py. -/
def EXCEL_EXTENSIONS : List String := [".xlsx"]

/-! ## The table loader (src/helpers/file_io.py, `read_data_file`)

The external parsing libraries are modelled as oracles stored in the file
description: an `Option`-valued field is `none` exactly when the
corresponding library call raises an exception on this file. -/

/-- A file on disk, as seen by `read_data_file` and the report generator:
its path pieces plus the outcome of every library call the loader may make. -/
structure FileDesc where
  /-- `Path(path).stem` -/
  stem : String
  /-- `Path(path).suffix` -/
  suffix : String
  /-- `pd.read_csv(p, encoding=enc)`; `none` models an exception. -/
  csvEnc : String → Option Table
  /-- `pd.read_csv(p, engine="python", on_bad_lines="skip")`; `none` models
  an exception. -/
  csvPython : Option Table
  /-- `pd.read_excel(p)`; `none` models an exception. -/
  excelSingle : Option Table
  /-- `pd.read_excel(p, sheet_name=None)`; `none` models an exception. -/
  excelAll : Option (List (String × Table))
  /-- The openpyxl fallback for a single sheet (`load_workbook` + first
  sheet values); `none` models an exception anywhere inside the fallback. -/
  wbSingle : Option Table
  /-- The openpyxl fallback for all sheets, already filtered of empty
  sheets; `none` models an exception anywhere inside the fallback. -/
  wbAll : Option (List (String × Table))

/-- `Path(path).name`. -/
def FileDesc.fname (f : FileDesc) : String := f.stem ++ f.suffix

/-- What `read_data_file` hands back when it does not raise: a single
table, a sheet-name-keyed mapping, or Python's `None`. -/
inductive ReadResult where
  | table (t : Table)
  | sheets (m : List (String × Table))
  | none

/-- The encoding loop of the CSV branch: first successful
`pd.read_csv(p, encoding=enc)` for enc in utf-8, latin1, windows-1252. -/
def tryEncodings (f : FileDesc) : Option Table :=
  f.csvEnc "utf-8" <|> f.csvEnc "latin1" <|> f.csvEnc "windows-1252"

/-- Embedding of `read_data_file` (src/helpers/file_io.py, lines 10-83).
`Except.error` models an exception propagating out of the function.

Faithful control flow: in the CSV branch with `read_all_sheets = False`,
the final `pd.read_csv(p, engine="python", on_bad_lines="skip")` call is
NOT inside any try/except, so its exception propagates; with
`read_all_sheets = True` the same call sits inside a try/except that
returns `None`.  The Excel branch wraps everything and returns `None`
when even the openpyxl fallback fails. -/
def read_data_file (f : FileDesc) (read_all_sheets : Bool) : Except String ReadResult :=
  if pyLower f.suffix = ".csv" then
    if read_all_sheets then
      match tryEncodings f with
      | some df => .ok (.sheets [(f.stem, df)])
      | Option.none =>
        match f.csvPython with
        | some df => .ok (.sheets [(f.stem, df)])
        | Option.none => .ok .none
    else
      match tryEncodings f with
      | some df => .ok (.table df)
      | Option.none =>
        match f.csvPython with
        | some df => .ok (.table df)
        | Option.none => .error ("read_csv raised on " ++ f.fname)
  else
    if pyLower f.suffix ∈ EXCEL_EXTENSIONS then
      match (if read_all_sheets then f.excelAll.map ReadResult.sheets else f.excelSingle.map ReadResult.table) with
      | some r => .ok r
      | Option.none =>
        if read_all_sheets then
          match f.wbAll with
          | some [] => .ok .none
          | some m => .ok (.sheets m)
          | Option.none => .ok .none
        else
          match f.wbSingle with
          | some t => .ok (.table t)
          | Option.none => .ok .none
    else
      match (if read_all_sheets then f.excelAll.map ReadResult.sheets else f.excelSingle.map ReadResult.table) with
      | some r => .ok r
      | Option.none =>
        if read_all_sheets then
          match f.wbAll with
          | some [] => .ok .none
          | some m => .ok (.sheets m)
          | Option.none => .ok .none
        else
          match f.wbSingle with
          | some t => .ok (.table t)
          | Option.none => .ok .none

/-! ## The report generator (src/tools/field_report.py, `field_report_generator`) -/

/-- One row of the accumulated `results` list: the profile metrics plus the
`File` and `FileColumn` values attached by the loop body. -/
structure Row where
  file : String
  column : String
  profile : ColumnProfile
deriving DecidableEq, Repr

/-- The profile rows contributed by one loaded table under one file name. -/
def profileRows (fname : String) (t : Table) : List Row :=
  t.map (fun c => ⟨fname, c.1, profile_column c.2⟩)

/-- The state of the Python local variable `df` across loop iterations:
never assigned yet, assigned `None`, or holding a table. -/
inductive DfState where
  | unbound
  | noneDf
  | table (t : Table)

/-- `path.stem.lower().startswith("_fieldreport")`: the self-report filter. -/
def isSelfReport (f : FileDesc) : Bool :=
  pyStartsWith (pyLower f.stem) "_fieldreport"

/-- Embedding of the per-file loop of `field_report_generator`
(src/tools/field_report.py, lines 127-145), including its actual
exception handling: when `read_data_file` raises, the `except` branch only
prints and does NOT `continue`, so control falls through to
`for col in df.columns` with `df` still holding its previous binding:

* `df` unbound (failure on the first candidate file): `NameError`;
* `df` bound to `None` (previous file yielded nothing): `AttributeError`;
* `df` bound to the previous file's table: that stale table is profiled
  again under the CURRENT file's name;
* `df` bound to a sheets dict (impossible here, `read_all_sheets=False`,
  but kept total): `AttributeError`. -/
def genLoop : DfState → List FileDesc → Except String (List Row)
  | _, [] => .ok []
  | df, f :: rest =>
    if isSelfReport f then genLoop df rest
    else
      match read_data_file f false with
      | .error _ =>
        match df with
        | .unbound => .error ("NameError: name df is not defined (while reading " ++ f.fname ++ ")")
        | .noneDf => .error ("AttributeError: NoneType has no attribute columns (while reading " ++ f.fname ++ ")")
        | .table t => (genLoop (.table t) rest).map (fun rs => profileRows f.fname t ++ rs)
      | .ok .none => genLoop .noneDf rest
      | .ok (.table t) => (genLoop (.table t) rest).map (fun rs => profileRows f.fname t ++ rs)
      | .ok (.sheets _) => .error ("AttributeError: dict has no attribute columns (while reading " ++ f.fname ++ ")")

/-- The running-parity walk behind the pandas expression
`(file != file.shift(fill_value=first_fill)).cumsum() % 2`:
`prev` is the previous row's `File` value, `acc` the running cumulative sum. -/
def flagsAux : String → Nat → List String → List Nat
  | _, _, [] => []
  | prev, acc, f :: t =>
    let acc2 := if f ≠ prev then acc + 1 else acc
    acc2 % 2 :: flagsAux f acc2 t

/-- The `Flag` column of the report: the first row is compared against
itself (`shift(fill_value=first_fill)` with `first_fill = iloc[0]`), so it
always gets parity `0`. -/
def flagList : List String → List Nat
  | [] => []
  | f :: t => flagsAux f 0 (f :: t)

/-- Zero-based column index to an Excel column letter
(`colnum_to_letter` in src/tools/field_report.py); the fuel argument
mirrors the `while n >= 0` loop, which runs at most `n + 1` times. -/
def colAux : Nat → Nat → String → String
  | 0, n, acc => String.singleton (Char.ofNat (n % 26 + 65)) ++ acc
  | fuel + 1, n, acc =>
    let acc2 := String.singleton (Char.ofNat (n % 26 + 65)) ++ acc
    if n < 26 then acc2 else colAux fuel (n / 26 - 1) acc2

/-- `colnum_to_letter(n)` from src/tools/field_report.py. -/
def colnum_to_letter (n : Nat) : String := colAux n n ""

/-- The column order of the final report: the eight selected metric
columns, then `Import` inserted at position 2, then the appended `Flag`
column. -/
def selectedColumns : List String :=
  [FIELD_COL_FILE, FIELD_COL_COLUMN, FIELD_COL_INFERRED_TYPE,
   FIELD_COL_TOP5_DISTINCT, FIELD_COL_DISTINCT_COUNT, FIELD_COL_VALUE_COUNT,
   FIELD_COL_EMPTY_VALUES, FIELD_COL_MAX_CHAR_LENGTH]

def reportColumns : List String :=
  (selectedColumns.insertIdx 2 FIELD_COL_IMPORT) ++ [FIELD_COL_FLAG]

/-- One conditional-formatting rule handed to the writer (flattened view of
the Python dict). -/
structure FormatRule where
  columns : List String
  kind : String
  criteria : String
  value : String
  bgColor : String
  fontColor : String
  firstRow : Nat
  lastRow : Nat
deriving DecidableEq, Repr

/-- The three rules as initially listed in `conditional_formats`
(src/tools/field_report.py, lines 195-222): Import==Yes, Import==No, and
the wildcard whole-row formula rule whose criteria is populated later. -/
def initialRules (rowCount : Nat) : List FormatRule :=
  [{ columns := [FIELD_COL_IMPORT], kind := "cell", criteria := "==", value := "Yes",
     bgColor := "#7CDA8E", fontColor := "#006100", firstRow := 1, lastRow := max 1 rowCount },
   { columns := [FIELD_COL_IMPORT], kind := "cell", criteria := "==", value := "No",
     bgColor := "#DD8989", fontColor := "#9C0006", firstRow := 1, lastRow := max 1 rowCount },
   { columns := ["*"], kind := "formula", criteria := "", value := "",
     bgColor := "#C8E3EC", fontColor := "", firstRow := 1, lastRow := max 1 rowCount }]

/-- The assembled report: the profile rows, the column order of the final
table, and the `Flag` column values. -/
structure Report where
  rows : List Row
  columns : List String
  flags : List Nat
deriving Repr

/-- Everything `field_report_generator` hands to `save_formatted_excel`
that the claims talk about. -/
structure GenResult where
  report : Report
  conditionalFormats : List FormatRule
  hideColumns : List String
deriving Repr

/-- Embedding of the assembly part of `field_report_generator`
(src/tools/field_report.py, lines 124-240), starting at `results = []`
(the GUI dialog and output-path pieces above it are presentation-only).

Faithful control flow:
* `pd.DataFrame(results)[[...]]` raises `KeyError` when `results` is empty
  (an empty frame has none of the selected columns), so the empty case is
  an `Except.error`;
* on a non-empty frame the `Flag` column is computed by the running-parity
  expression (the `else` branch that would create a constant `0` column is
  unreachable);
* the flag column letter is looked up with `get_loc` on the final column
  list; when the lookup succeeds the last rule's criteria is populated,
  otherwise the wildcard formula rule is filtered out. -/
def field_report_generator (input_paths : List FileDesc) : Except String GenResult :=
  (genLoop .unbound input_paths).bind (fun results =>
    if results.isEmpty then
      .error "KeyError: none of the selected columns are in an empty DataFrame"
    else
      let flags := flagList (results.map (fun r => r.file))
      let row_count := results.length
      let flag_column_letter :=
        (List.indexOf? FIELD_COL_FLAG reportColumns).map colnum_to_letter
      let conditional_formats := initialRules row_count
      let conditional_formats :=
        match flag_column_letter with
        | some letter =>
          conditional_formats.dropLast ++
            (conditional_formats.getLast?.toList.map
              (fun r => { r with criteria := "=$" ++ letter ++ "2=1" }))
        | Option.none =>
          conditional_formats.filter
            (fun r => ¬(r.kind = "formula" ∧ r.columns = ["*"]))
      .ok { report := { rows := results, columns := reportColumns, flags := flags }
            conditionalFormats := conditional_formats
            hideColumns := [FIELD_COL_FLAG] })

/-! ## The output namer (src/tools/field_report.py, `get_next_available_filename`)

The filesystem snapshot is the list of file names existing in the target
directory.  Python renders the counter with `f"{stem}_{counter}{suffix}"`;
the decimal rendering of the counter is modelled by `pyNatStr`. -/

/-- Digit list of `n` in base 10, most significant first; the fuel argument
makes the recursion structural (any fuel at least the digit count of `n`
gives the same answer, and `n` itself always suffices). -/
def pyNatStrAux : Nat → Nat → List Char
  | 0, _ => []
  | fuel + 1, n =>
    if n = 0 then []
    else pyNatStrAux fuel (n / 10) ++ [Nat.digitChar (n % 10)]

/-- Model of Python's decimal rendering `f"{n}"` of a non-negative integer. -/
def pyNatStr (n : Nat) : String :=
  if n = 0 then "0" else ⟨pyNatStrAux n n⟩

/-- `f"{stem}_{counter}{suffix}"`: the candidate file name for one counter
value. -/
def mkName (stem : String) (counter : Nat) (suffix : String) : String :=
  stem ++ "_" ++ pyNatStr counter ++ suffix

/-- The `while True` loop of `get_next_available_filename`: try counters
`c, c+1, c+2, ...` until a name not present in the directory listing is
found.  The fuel argument bounds the iteration count; the Python loop
terminates within `fs.length + 1` iterations because the candidate names
are pairwise distinct while the directory is finite. -/
def searchFree (fs : List String) (stem suffix : String) : Nat → Nat → String
  | 0, c => mkName stem c suffix
  | fuel + 1, c =>
    if mkName stem c suffix ∈ fs then searchFree fs stem suffix fuel (c + 1)
    else mkName stem c suffix

/-- Embedding of `get_next_available_filename` (src/tools/field_report.py,
lines 32-49): return the requested name unchanged when it does not exist,
else append `_2`, `_3`, ... before the extension until a free name is
found.  `fs` is the directory listing; a path exists iff its file name is
in `fs`. -/
def get_next_available_filename (fs : List String) (stem suffix : String) : String :=
  if stem ++ suffix ∈ fs then searchFree fs stem suffix (fs.length + 1) 2
  else stem ++ suffix

/-! ## Specification-side definitions and concrete demonstration inputs -/

/-- The normalized string view of a column used by the boolean check of the
type inferencer: trimmed, lower-cased `str()` forms of the non-null values. -/
def normalizedStrings (s : Series) : List String :=
  (s.values.filter (fun v => v ≠ Value.null)).map (fun v => pyLower (pyStrip (pyStr v)))

/-- The boolean condition of the type inferencer, as a Bool: the set of
distinct normalized strings is a subset of one of the boolean vocabularies. -/
def booleanCheck (s : Series) : Bool :=
  boolean_sets.any (fun valid => (uniqueInOrder (normalizedStrings s)).all (fun x => valid.contains x))

/-- Number of rows `j` with `1 ≤ j ≤ i` whose `File` value differs from row
`j-1`'s `File` value (the quantity named by the group-flag claim). -/
def switchesUpTo (l : List String) (i : Nat) : Nat :=
  (List.range i).countP (fun j => l.getD (j + 1) "" != l.getD j "")

/-- A CSV file none of whose read attempts succeeds (for example a zero-byte
`.csv` file: every `pd.read_csv` call raises `EmptyDataError`). -/
def emptyOracleCsv : FileDesc :=
  { stem := "broken", suffix := ".csv", csvEnc := fun _ => none, csvPython := none,
    excelSingle := none, excelAll := none, wbSingle := none, wbAll := none }

/-- An `.xlsx` file that both pandas and the openpyxl fallback fail to load:
`read_data_file` returns `None` for it, so the generator skips it. -/
def unreadableXlsx : FileDesc :=
  { stem := "data", suffix := ".xlsx", csvEnc := fun _ => none, csvPython := none,
    excelSingle := none, excelAll := none, wbSingle := none, wbAll := none }

/-- A one-column table used by the demonstration files. -/
def goodTable : Table := [("A", ⟨Dtype.object, [Value.str "x"]⟩)]

/-- A healthy `.xlsx` file that loads into `goodTable`. -/
def goodXlsx : FileDesc :=
  { stem := "good", suffix := ".xlsx", csvEnc := fun _ => none, csvPython := none,
    excelSingle := some goodTable, excelAll := none, wbSingle := none, wbAll := none }

/-- The column of the top-5 example: values A,A,B,C,D,E,F with A most
frequent. -/
def exampleTopColumn : Series :=
  ⟨Dtype.object,
   [Value.str "A", Value.str "A", Value.str "B", Value.str "C", Value.str "D",
    Value.str "E", Value.str "F"]⟩

/-! ## Claims C1-C3: failure semantics of loading and assembly -/

/-- Claim C1 (code bug demonstration).  The claim states that an input list
from which zero columns are profiled yields a valid empty-bodied table
rather than raising.  The code instead raises: with every file failing to
load, `results` stays empty and `pd.DataFrame(results)[[...]]` raises
`KeyError` because an empty frame contains none of the selected columns.
This theorem evaluates the embedded generator at such an input and shows it
produces an exception, not an empty table. -/
theorem claim_C1_empty_results_raise_keyerror :
    field_report_generator [unreadableXlsx] =
      .error "KeyError: none of the selected columns are in an empty DataFrame" := rfl

/-- Claim C2 (code bug demonstration).  The claim states that a file whose
load raises is skipped, with no profile row produced for it.  The `except`
branch of the loop lacks a `continue`, so after a raising load control
falls through to `for col in df.columns` with `df` still bound to the
PREVIOUS file's table: the failing file gets profile rows copied from the
previous file's data.  Here `broken.csv` (whose load raises) receives a
row profiling `good.xlsx`'s column `A`. -/
theorem claim_C2_failing_file_gets_stale_rows :
    (field_report_generator [goodXlsx, emptyOracleCsv]).map
      (fun r => r.report.rows.map (fun row => (row.file, row.column))) =
      .ok [("good.xlsx", "A"), ("broken.csv", "A")] := rfl

/-- Claim C2, second consequence of the missing `continue`: when the very
first file's load raises, `df` has never been bound and the whole batch
aborts with a `NameError` instead of continuing. -/
theorem claim_C2_first_file_failure_aborts_batch :
    field_report_generator [emptyOracleCsv, goodXlsx] =
      .error "NameError: name df is not defined (while reading broken.csv)" := rfl

/-- Claim C3 (code bug demonstration).  The claim (and the function's own
docstring) states `read_data_file` returns `None` rather than raising for
unreadable files.  In the single-sheet CSV branch the final
`pd.read_csv(p, engine="python", on_bad_lines="skip")` call is outside
every try/except, so a CSV that defeats all read attempts (for example a
zero-byte file) makes `read_data_file` raise. -/
theorem claim_C3_unreadable_csv_raises :
    read_data_file emptyOracleCsv false = .error "read_csv raised on broken.csv" := rfl

/-- Claim C3, contrast: the same unreadable CSV in all-sheets mode is
caught and yields `None`, confirming that only the single-sheet CSV path
violates the contract. -/
theorem claim_C3_all_sheets_mode_returns_none :
    read_data_file emptyOracleCsv true = .ok ReadResult.none := rfl

/-! ## Claims C4-C5: the type inferencer -/

/-- Bridge between the Bool-level `contains` used by the code and
membership. -/
theorem contains_true_iff {l : List String} {x : String} :
    l.contains x = true ↔ x ∈ l := by
  simp [List.contains, List.elem_iff]

/-- Claim C4 counterexample.  The claim states the boolean check requires a
NON-EMPTY set of distinct normalized values and that an all-null column
falls through to the storage-type checks (which would classify this
numeric-dtype column as Numeric).  The code tests subset-ness with no
non-emptiness guard, the empty set is a subset of every vocabulary, and the
all-null column is classified Boolean. -/
theorem claim_C4_counterexample :
    (profile_column ⟨Dtype.numeric, [Value.null]⟩).inferredType = "Boolean" ∧
    ¬ (profile_column ⟨Dtype.numeric, [Value.null]⟩).inferredType = "Numeric" := by
  decide

/-- Claim C4 as amended: the inferencer classifies Boolean exactly when
every distinct trimmed lower-cased value string lies in one of the three
vocabularies — with no non-emptiness requirement — and consequently a
column with zero non-null values is always classified Boolean, never
reaching the storage-type checks. -/
theorem claim_C4_amended_boolean_iff_subset :
    (∀ s : Series, (profile_column s).inferredType = "Boolean" ↔
        ∃ vs ∈ boolean_sets, ∀ x ∈ uniqueInOrder (normalizedStrings s), x ∈ vs) ∧
    (∀ (dt : Dtype) (vals : List Value), (∀ v ∈ vals, v = Value.null) →
        (profile_column ⟨dt, vals⟩).inferredType = "Boolean") := by
  have key : ∀ s : Series, (profile_column s).inferredType =
      if booleanCheck s then "Boolean"
      else if s.dtype = Dtype.numeric then "Numeric"
      else if s.dtype = Dtype.datetime then "Date"
      else "Text" := fun s => rfl
  have main : ∀ s : Series, (profile_column s).inferredType = "Boolean" ↔
      ∃ vs ∈ boolean_sets, ∀ x ∈ uniqueInOrder (normalizedStrings s), x ∈ vs := by
    intro s
    rw [key]
    unfold booleanCheck
    have hiff : (boolean_sets.any
        (fun valid => (uniqueInOrder (normalizedStrings s)).all (fun x => valid.contains x))) = true ↔
        ∃ vs ∈ boolean_sets, ∀ x ∈ uniqueInOrder (normalizedStrings s), x ∈ vs := by
      rw [List.any_eq_true]
      constructor
      · intro ⟨vs, hvs, hall⟩
        exact ⟨vs, hvs, fun x hx => contains_true_iff.mp (List.all_eq_true.mp hall x hx)⟩
      · intro ⟨vs, hvs, hall⟩
        exact ⟨vs, hvs, List.all_eq_true.mpr (fun x hx => contains_true_iff.mpr (hall x hx))⟩
    split_ifs with hc h1 h2
    · simp only [true_iff]
      exact hiff.mp hc
    · exact iff_of_false (by decide) (fun hp => hc (hiff.mpr hp))
    · exact iff_of_false (by decide) (fun hp => hc (hiff.mpr hp))
    · exact iff_of_false (by decide) (fun hp => hc (hiff.mpr hp))
  refine ⟨main, fun dt vals hnull => ?_⟩
  have hfil : vals.filter (fun v => v ≠ Value.null) = [] := by
    rw [List.filter_eq_nil_iff]
    intro a ha
    simp [hnull a ha]
  have hns : normalizedStrings ⟨dt, vals⟩ = [] := by
    show (vals.filter (fun v => v ≠ Value.null)).map (fun v => pyLower (pyStrip (pyStr v))) = []
    rw [hfil]
    rfl
  refine (main ⟨dt, vals⟩).2 ⟨["true", "false"], by simp [boolean_sets], ?_⟩
  intro x hx
  rw [hns] at hx
  simp [uniqueInOrder, uniqueAux] at hx

/-- Claim C4 witness: the amended characterization applied at the all-null
numeric column of the counterexample. -/
theorem claim_C4_amended_witness :
    (profile_column ⟨Dtype.numeric, [Value.null]⟩).inferredType = "Boolean" :=
  claim_C4_amended_boolean_iff_subset.2 Dtype.numeric [Value.null] (by decide)

/-- Claim C5: type inference is ordered with first match winning — the
normalized-string boolean check runs first (so a textual true/false column
is Boolean whatever its dtype), then a numeric dtype yields Numeric, then a
date/time dtype yields Date, otherwise Text; with the claim's three
vocabulary examples. -/
theorem claim_C5_type_inference_order :
    (∀ s : Series, (profile_column s).inferredType =
        if booleanCheck s then "Boolean"
        else if s.dtype = Dtype.numeric then "Numeric"
        else if s.dtype = Dtype.datetime then "Date"
        else "Text") ∧
    (∀ dt : Dtype, (profile_column
        ⟨dt, [Value.str "true", Value.str "false", Value.str "true"]⟩).inferredType = "Boolean") ∧
    (∀ dt : Dtype, (profile_column
        ⟨dt, [Value.str "1", Value.str "0"]⟩).inferredType = "Boolean") ∧
    (profile_column ⟨Dtype.numeric, [Value.str "yes", Value.str "maybe"]⟩).inferredType = "Numeric" ∧
    (profile_column ⟨Dtype.datetime, [Value.str "yes", Value.str "maybe"]⟩).inferredType = "Date" ∧
    (profile_column ⟨Dtype.object, [Value.str "yes", Value.str "maybe"]⟩).inferredType = "Text" :=
  ⟨fun _ => rfl, fun dt => by cases dt <;> decide, fun dt => by cases dt <;> decide,
   by decide, by decide, by decide⟩

/-! ## Claim C9: profile invariants -/

/-- The deduplicated list is never longer than the input. -/
theorem uniqueAux_length_le {α : Type} [DecidableEq α] :
    ∀ (l seen : List α), (uniqueAux seen l).length ≤ l.length := by
  intro l
  induction l with
  | nil => intro seen; simp [uniqueAux]
  | cons v t ih =>
    intro seen
    unfold uniqueAux
    split_ifs
    · exact Nat.le_succ_of_le (ih seen)
    · simpa using Nat.succ_le_succ (ih (v :: seen))

/-- Rounding zero to two decimals gives zero. -/
theorem round2_zero : round2 0 = 0 := by
  simp [round2]

/-- Rounding a non-negative fraction to two decimals stays non-negative. -/
theorem round2_nonneg (q : ℚ) (h : 0 ≤ q) : 0 ≤ round2 q := by
  unfold round2
  apply div_nonneg _ (by norm_num)
  have hz : (0 : ℤ) ≤ round (q * 100) := by
    rw [round_eq]
    apply Int.le_floor.mpr
    push_cast
    linarith
  exact_mod_cast hz

/-- Rounding a fraction in the unit interval to two decimals stays at most
one. -/
theorem round2_le_one (q : ℚ) (_h0 : 0 ≤ q) (h1 : q ≤ 1) : round2 q ≤ 1 := by
  unfold round2
  rw [div_le_one (by norm_num)]
  have hz : round (q * 100) ≤ 100 := by
    rw [round_eq]
    have : (⌊q * 100 + 1 / 2⌋ : ℤ) < 101 := by
      apply Int.floor_lt.mpr
      push_cast
      linarith
    omega
  exact_mod_cast hz

/-- Claim C9: for every input column, distinct count is at most the
non-null value count, which is at most the row count; the empty-value
fraction lies in the unit interval and is zero for a zero-row or null-free
column; and the max character length is a non-negative quantity that is
zero when the column has no non-null values. -/
theorem claim_C9_profile_invariants (s : Series) :
    (profile_column s).distinctCount ≤ (profile_column s).valueCount ∧
    (profile_column s).valueCount ≤ s.values.length ∧
    0 ≤ (profile_column s).emptyValues ∧
    (profile_column s).emptyValues ≤ 1 ∧
    (s.values.length = 0 → (profile_column s).emptyValues = 0) ∧
    (Value.null ∉ s.values → (profile_column s).emptyValues = 0) ∧
    ((s.values.filter (fun v => v ≠ Value.null)).length = 0 →
      (profile_column s).maxCharLength = 0) ∧
    0 ≤ (profile_column s).maxCharLength := by
  have hd : (profile_column s).distinctCount =
      (uniqueInOrder (s.values.filter (fun v => v ≠ Value.null))).length := rfl
  have hv : (profile_column s).valueCount =
      (s.values.filter (fun v => v ≠ Value.null)).length := rfl
  have he : (profile_column s).emptyValues =
      if s.values.length > 0 then
        round2 (((s.values.length - (s.values.filter (fun v => v ≠ Value.null)).length : ℕ) : ℚ)
          / (s.values.length : ℚ))
      else 0 := rfl
  have hm : (profile_column s).maxCharLength =
      if (s.values.filter (fun v => v ≠ Value.null)).length > 0 then
        ((s.values.filter (fun v => v ≠ Value.null)).map (fun v => (pyStr v).length)).foldl max 0
      else 0 := rfl
  have hflen : (s.values.filter (fun v => v ≠ Value.null)).length ≤ s.values.length :=
    List.length_filter_le _ _
  have hfrac0 : 0 ≤ (((s.values.length - (s.values.filter (fun v => v ≠ Value.null)).length : ℕ) : ℚ)
      / (s.values.length : ℚ)) := by positivity
  refine ⟨?_, ?_, ?_, ?_, ?_, ?_, ?_, Nat.zero_le _⟩
  · rw [hd, hv]
    exact uniqueAux_length_le _ _
  · rw [hv]
    exact hflen
  · rw [he]
    split_ifs with h
    · exact round2_nonneg _ hfrac0
    · exact le_refl 0
  · rw [he]
    split_ifs with h
    · apply round2_le_one _ hfrac0
      rw [div_le_one (by exact_mod_cast h)]
      have : (s.values.length - (s.values.filter (fun v => v ≠ Value.null)).length : ℕ)
          ≤ s.values.length := Nat.sub_le _ _
      exact_mod_cast this
    · norm_num
  · intro h0
    rw [he, if_neg (by omega)]
  · intro hnull
    have hself : s.values.filter (fun v => v ≠ Value.null) = s.values := by
      rw [List.filter_eq_self]
      intro a ha
      simp only [decide_eq_true_eq]
      intro hEq
      exact hnull (hEq ▸ ha)
    rw [he]
    split_ifs with h
    · rw [hself, Nat.sub_self]
      simpa using round2_zero
    · rfl
  · intro h0
    rw [hm, if_neg (by omega)]

/-- Claim C9 witness: the invariants discharged at the empty column. -/
theorem claim_C9_witness :
    (profile_column ⟨Dtype.object, []⟩).emptyValues = 0 ∧
    (profile_column ⟨Dtype.object, []⟩).maxCharLength = 0 ∧
    (profile_column ⟨Dtype.object, []⟩).distinctCount ≤
      (profile_column ⟨Dtype.object, []⟩).valueCount := by
  obtain ⟨h1, _, _, _, h5, _, h7, _⟩ := claim_C9_profile_invariants ⟨Dtype.object, []⟩
  exact ⟨h5 rfl, h7 rfl, h1⟩

/-! ## Claim C6: the group flag -/

/-- Peeling one comparison off the switch counter: the count up to `k + 1`
along `prev :: f :: t` is the first comparison plus the count up to `k`
along `f :: t`. -/
theorem switchesUpTo_cons (prev f : String) (t : List String) (k : Nat) :
    switchesUpTo (prev :: f :: t) (k + 1) =
      (if f != prev then 1 else 0) + switchesUpTo (f :: t) k := by
  unfold switchesUpTo
  rw [List.range_succ_eq_map, List.countP_cons, List.countP_map]
  have hp : ((fun j => (prev :: f :: t).getD (j + 1) "" != (prev :: f :: t).getD j "") ∘ Nat.succ) =
      (fun j => (f :: t).getD (j + 1) "" != (f :: t).getD j "") := by
    funext j
    simp [Function.comp]
  rw [hp]
  simp [Nat.add_comm]

/-- The running-parity walk agrees with the switch-count formula: entry `i`
of `flagsAux prev acc t` is the starting count plus the number of
consecutive-pair switches along `prev :: t` seen so far, mod 2. -/
theorem flagsAux_getElem? :
    ∀ (t : List String) (prev : String) (acc i : Nat), i < t.length →
      (flagsAux prev acc t)[i]? = some ((acc + switchesUpTo (prev :: t) (i + 1)) % 2) := by
  intro t
  induction t with
  | nil => intro prev acc i h; simp at h
  | cons f t' ih =>
    intro prev acc i h
    rw [show flagsAux prev acc (f :: t') =
        ((if f ≠ prev then acc + 1 else acc) % 2) ::
          flagsAux f (if f ≠ prev then acc + 1 else acc) t' from rfl]
    rw [switchesUpTo_cons]
    have hacc : (if f ≠ prev then acc + 1 else acc) =
        acc + (if f != prev then 1 else 0) := by
      by_cases hfp : f = prev <;> simp [hfp]
    cases i with
    | zero =>
      rw [List.getElem?_cons_zero]
      have h0 : switchesUpTo (f :: t') 0 = 0 := by
        simp [switchesUpTo]
      rw [h0, hacc]
      simp
    | succ i' =>
      rw [List.getElem?_cons_succ]
      rw [ih f (if f ≠ prev then acc + 1 else acc) i' (by simpa using h)]
      rw [hacc]
      congr 1
      omega

/-- Claim C6: in every assembled report, row `i`'s group flag equals the
number of rows `j` with `1 ≤ j ≤ i` whose `File` value differs from row
`j-1`'s `File` value, taken mod 2; the first row's flag is 0; and the
files F1,F1,F2,F2,F3 produce flags [0,0,1,1,0]. -/
theorem claim_C6_group_flag :
    (∀ (l : List String) (i : Nat), i < l.length →
        (flagList l)[i]? = some (switchesUpTo l i % 2)) ∧
    (∀ l : List String, 0 < l.length → (flagList l)[0]? = some 0) ∧
    flagList ["F1", "F1", "F2", "F2", "F3"] = [0, 0, 1, 1, 0] := by
  have general : ∀ (l : List String) (i : Nat), i < l.length →
      (flagList l)[i]? = some (switchesUpTo l i % 2) := by
    intro l i h
    match l with
    | [] => simp at h
    | f :: t =>
      show (flagsAux f 0 (f :: t))[i]? = some (switchesUpTo (f :: t) i % 2)
      rw [flagsAux_getElem? (f :: t) f 0 i h]
      rw [switchesUpTo_cons]
      simp
  refine ⟨general, ?_, by decide⟩
  intro l hl
  rw [general l 0 hl]
  simp [switchesUpTo]

/-- Claim C6 witness: the switch-count formula instantiated at the last row
of the example file sequence. -/
theorem claim_C6_witness :
    (flagList ["F1", "F1", "F2", "F2", "F3"])[4]? =
      some (switchesUpTo ["F1", "F1", "F2", "F2", "F3"] 4 % 2) ∧
    (flagList ["F1", "F1", "F2", "F2", "F3"])[0]? = some 0 :=
  ⟨claim_C6_group_flag.1 _ 4 (by decide), claim_C6_group_flag.2.1 _ (by decide)⟩

/-! ## Claim C7: the top-5 distinct string -/

/-- Every element emitted by `uniqueAux` comes from the input list. -/
theorem uniqueAux_subset {α : Type} [DecidableEq α] :
    ∀ (l seen : List α) (x : α), x ∈ uniqueAux seen l → x ∈ l := by
  intro l
  induction l with
  | nil => intro seen x hx; simp [uniqueAux] at hx
  | cons v t ih =>
    intro seen x hx
    unfold uniqueAux at hx
    split_ifs at hx
    · exact List.mem_cons_of_mem v (ih seen x hx)
    · rcases List.mem_cons.mp hx with h | h
      · exact h ▸ List.mem_cons_self x t
      · exact List.mem_cons_of_mem v (ih (v :: seen) x h)

/-- `uniqueAux` emits no element of `seen` and no duplicates. -/
theorem uniqueAux_nodup {α : Type} [DecidableEq α] :
    ∀ (l seen : List α), (uniqueAux seen l).Nodup ∧ ∀ x ∈ uniqueAux seen l, x ∉ seen := by
  intro l
  induction l with
  | nil => intro seen; simp [uniqueAux]
  | cons v t ih =>
    intro seen
    unfold uniqueAux
    split_ifs with hv
    · exact ih seen
    · obtain ⟨hnd, hmem⟩ := ih (v :: seen)
      refine ⟨List.nodup_cons.mpr ⟨fun hvmem => ?_, hnd⟩, ?_⟩
      · exact hmem v hvmem (List.mem_cons_self v seen)
      · intro x hx
        rcases List.mem_cons.mp hx with h | h
        · exact h ▸ hv
        · exact fun hxs => hmem x h (List.mem_cons_of_mem v hxs)

/-- The value projection of the ranked entries is exactly the distinct
values in first-occurrence order. -/
theorem rankedEntries_map_value (l : List Value) :
    (rankedEntries l).map (fun e => e.2.1) = uniqueInOrder l := by
  unfold rankedEntries
  rw [List.map_map]
  exact List.enum_map_snd (uniqueInOrder l)

/-- Claim C7: for every column, the top-5 field is built from a ranking of
the distinct non-null values that is a permutation of the
first-occurrence-tagged distinct values, ordered by the
descending-frequency / first-encounter relation `rankLE`; at most five
entries are stringified and joined by "; "; the ranked values are pairwise
distinct and all drawn from the column's non-null values.  For the example
column A,A,B,C,D,E,F (A most frequent) the field is exactly
"A; B; C; D; E" — it begins with "A", has five entries, and excludes F. -/
theorem claim_C7_top5_ranking :
    (∀ s : Series, ∃ E : List RankEntry,
        E.Perm (rankedEntries (s.values.filter (fun v => v ≠ Value.null))) ∧
        E.Pairwise rankLE ∧
        (profile_column s).top5 =
          String.intercalate "; " ((E.take 5).map (fun e => pyStr e.2.1)) ∧
        (E.take 5).length ≤ 5 ∧
        (E.map (fun e => e.2.1)).Nodup ∧
        (∀ e ∈ E, e.2.1 ∈ s.values.filter (fun v => v ≠ Value.null))) ∧
    (profile_column exampleTopColumn).top5 = "A; B; C; D; E" := by
  refine ⟨fun s => ?_, by decide⟩
  set nn := s.values.filter (fun v => v ≠ Value.null) with hnn
  refine ⟨value_counts nn, ?_, ?_, rfl, ?_, ?_, ?_⟩
  · exact List.perm_insertionSort rankLE (rankedEntries nn)
  · exact List.sorted_insertionSort rankLE (rankedEntries nn)
  · simp [List.length_take]
  · have hperm := (List.perm_insertionSort rankLE (rankedEntries nn)).map (fun e => e.2.1)
    rw [rankedEntries_map_value] at hperm
    exact hperm.symm.nodup (uniqueAux_nodup nn []).1
  · intro e he
    have hmem : e.2.1 ∈ (value_counts nn).map (fun e => e.2.1) :=
      List.mem_map_of_mem _ he
    have hperm := (List.perm_insertionSort rankLE (rankedEntries nn)).map (fun e => e.2.1)
    rw [rankedEntries_map_value] at hperm
    exact uniqueAux_subset nn [] e.2.1 (hperm.mem_iff.mp hmem)

/-! ## Claim C8: the output namer -/

/-- `Nat.digitChar` is injective on decimal digits. -/
theorem digitChar_inj_lt10 : ∀ a b : Nat, a < 10 → b < 10 →
    Nat.digitChar a = Nat.digitChar b → a = b := by
  intro a b ha hb h
  interval_cases a <;> interval_cases b <;> revert h <;> decide

/-- Unfolding `pyNatStrAux` at positive fuel and a positive number. -/
theorem pyNatStrAux_succ (fuel n : Nat) (hn : n ≠ 0) :
    pyNatStrAux (fuel + 1) n = pyNatStrAux fuel (n / 10) ++ [Nat.digitChar (n % 10)] := by
  simp only [pyNatStrAux, if_neg hn]

/-- `pyNatStrAux` at zero is the empty list for any fuel. -/
theorem pyNatStrAux_zero (fuel : Nat) : pyNatStrAux fuel 0 = [] := by
  cases fuel <;> simp [pyNatStrAux]

/-- With sufficient fuel, the digit list of a positive number is
non-empty. -/
theorem pyNatStrAux_ne_nil (fuel n : Nat) (hn : 0 < n) (hle : n ≤ fuel) :
    pyNatStrAux fuel n ≠ [] := by
  cases fuel with
  | zero => omega
  | succ f =>
    rw [pyNatStrAux_succ f n (by omega)]
    simp

/-- Fuel-insensitive injectivity of the digit-list construction. -/
theorem pyNatStrAux_inj : ∀ (f1 : Nat), ∀ (f2 m n : Nat), m ≤ f1 → n ≤ f2 →
    pyNatStrAux f1 m = pyNatStrAux f2 n → m = n := by
  intro f1
  induction f1 with
  | zero =>
    intro f2 m n hm hn heq
    have hm0 : m = 0 := Nat.le_zero.mp hm
    subst hm0
    by_contra hne
    have hnpos : 0 < n := Nat.pos_of_ne_zero (fun h => hne (h ▸ rfl))
    rw [pyNatStrAux_zero] at heq
    exact pyNatStrAux_ne_nil f2 n hnpos hn heq.symm
  | succ f1' ih =>
    intro f2 m n hm hn heq
    by_cases hm0 : m = 0
    · subst hm0
      by_contra hne
      have hnpos : 0 < n := Nat.pos_of_ne_zero (fun h => hne (h ▸ rfl))
      rw [pyNatStrAux_zero] at heq
      exact pyNatStrAux_ne_nil f2 n hnpos hn heq.symm
    · by_cases hn0 : n = 0
      · subst hn0
        rw [pyNatStrAux_zero] at heq
        exact absurd heq (pyNatStrAux_ne_nil (f1' + 1) m (Nat.pos_of_ne_zero hm0) hm)
      · cases f2 with
        | zero => omega
        | succ f2' =>
          rw [pyNatStrAux_succ f1' m hm0, pyNatStrAux_succ f2' n hn0] at heq
          obtain ⟨hpre, hdig⟩ := List.append_inj' heq rfl
          have hmod : m % 10 = n % 10 := by
            have := List.head_eq_of_cons_eq hdig
            exact digitChar_inj_lt10 _ _ (Nat.mod_lt _ (by omega)) (Nat.mod_lt _ (by omega)) this
          have hdiv : m / 10 = n / 10 := by
            apply ih f2' (m / 10) (n / 10) ?_ ?_ hpre
            · have : m / 10 < m := Nat.div_lt_self (Nat.pos_of_ne_zero hm0) (by omega)
              omega
            · have : n / 10 < n := Nat.div_lt_self (Nat.pos_of_ne_zero hn0) (by omega)
              omega
          omega

/-- The digit list of a positive number is never the single digit list of
zero. -/
theorem pyNatStrAux_self_ne_zero_digit (n : Nat) (hn : 0 < n) :
    pyNatStrAux n n ≠ ['0'] := by
  intro heq
  obtain ⟨f, rfl⟩ : ∃ f, n = f + 1 := ⟨n - 1, by omega⟩
  rw [pyNatStrAux_succ f (f + 1) (by omega)] at heq
  rw [show (['0'] : List Char) = [] ++ ['0'] from rfl] at heq
  obtain ⟨hA, hc⟩ := List.append_inj' heq rfl
  have hmod : (f + 1) % 10 = 0 := by
    have hchar : Nat.digitChar ((f + 1) % 10) = Nat.digitChar 0 :=
      List.head_eq_of_cons_eq hc
    exact digitChar_inj_lt10 _ _ (Nat.mod_lt _ (by omega)) (by omega) hchar
  have hdiv : (f + 1) / 10 = 0 := by
    by_contra hne
    exact pyNatStrAux_ne_nil f ((f + 1) / 10) (Nat.pos_of_ne_zero hne)
      (by have := Nat.div_lt_self (show 0 < f + 1 by omega) (show 1 < 10 by omega); omega) hA
  have := Nat.div_add_mod (f + 1) 10
  omega

/-- Python's decimal rendering of a natural number is injective. -/
theorem pyNatStr_injective : Function.Injective pyNatStr := by
  intro m n h
  unfold pyNatStr at h
  split_ifs at h with hm hn hn
  · omega
  · exfalso
    have hd := congrArg String.data h.symm
    exact pyNatStrAux_self_ne_zero_digit n (Nat.pos_of_ne_zero hn) hd
  · exfalso
    have hd := congrArg String.data h
    exact pyNatStrAux_self_ne_zero_digit m (Nat.pos_of_ne_zero hm) hd
  · have hd := congrArg String.data h
    exact pyNatStrAux_inj m n m n (le_refl m) (le_refl n) hd

/-- For a fixed stem and extension, distinct counters give distinct
candidate names. -/
theorem mkName_counter_inj (stem sfx : String) {m n : Nat}
    (h : mkName stem m sfx = mkName stem n sfx) : m = n := by
  unfold mkName at h
  have hd := congrArg String.data h
  simp only [String.data_append] at hd
  have h2 : (pyNatStr m).data = (pyNatStr n).data :=
    List.append_cancel_left (List.append_cancel_right hd)
  exact pyNatStr_injective (congrArg (fun l => (⟨l⟩ : String)) h2)

/-- When every counter in `[2, N)` is taken and `N` is free, `N` cannot
exceed the directory size by more than the two skipped counters: the taken
candidate names are pairwise distinct members of the listing. -/
theorem counters_bound (fs : List String) (stem sfx : String) (N : Nat) (h2 : 2 ≤ N)
    (hmin : ∀ M, 2 ≤ M → M < N → mkName stem M sfx ∈ fs) : N ≤ fs.length + 2 := by
  by_contra hgt
  push_neg at hgt
  have hnd : ((List.range (N - 2)).map (fun i => mkName stem (2 + i) sfx)).Nodup := by
    apply List.Nodup.map ?_ (List.nodup_range (N - 2))
    intro a b hab
    have := mkName_counter_inj stem sfx hab
    omega
  have hsub : ∀ x ∈ (List.range (N - 2)).map (fun i => mkName stem (2 + i) sfx), x ∈ fs := by
    intro x hx
    rcases List.mem_map.mp hx with ⟨i, hi, rfl⟩
    have hi' := List.mem_range.mp hi
    exact hmin (2 + i) (by omega) (by omega)
  have hcard : ((List.range (N - 2)).map (fun i => mkName stem (2 + i) sfx)).length ≤ fs.length := by
    have hA := List.toFinset_card_of_nodup hnd
    have hB : ((List.range (N - 2)).map (fun i => mkName stem (2 + i) sfx)).toFinset ⊆
        fs.toFinset := by
      intro x hx
      exact List.mem_toFinset.mpr (hsub x (List.mem_toFinset.mp hx))
    have hC := List.toFinset_card_le fs
    have := Finset.card_le_card hB
    omega
  simp only [List.length_map, List.length_range] at hcard
  omega

/-- Correctness of the search loop: starting at counter `c` with enough
fuel, if every counter in `[c, N)` is taken and `N` is free, the loop
returns the name for `N`. -/
theorem searchFree_spec (fs : List String) (stem sfx : String) :
    ∀ (fuel c N : Nat), c ≤ N → N - c < fuel →
      mkName stem N sfx ∉ fs →
      (∀ M, c ≤ M → M < N → mkName stem M sfx ∈ fs) →
      searchFree fs stem sfx fuel c = mkName stem N sfx := by
  intro fuel
  induction fuel with
  | zero => intro c N _ hfuel _ _; omega
  | succ f ih =>
    intro c N hcN hfuel hfree hmin
    rw [show searchFree fs stem sfx (f + 1) c =
        if mkName stem c sfx ∈ fs then searchFree fs stem sfx f (c + 1)
        else mkName stem c sfx from rfl]
    by_cases hc : mkName stem c sfx ∈ fs
    · rw [if_pos hc]
      have hcltN : c < N := by
        rcases Nat.lt_or_ge c N with hlt | hge
        · exact hlt
        · have : c = N := by omega
          exact absurd (this ▸ hc) hfree
      exact ih (c + 1) N (by omega) (by omega) hfree (fun M h1 h2 => hmin M (by omega) h2)
    · rw [if_neg hc]
      have hNc : c = N := by
        by_contra hne
        exact hc (hmin c (le_refl c) (by omega))
      rw [hNc]

/-- Claim C8: `get_next_available_filename` returns the requested path
unchanged when no file of that name exists; otherwise it returns the name
with `_N` inserted before the extension for the least `N ≥ 2` naming no
existing file. -/
theorem claim_C8_output_namer (fs : List String) (stem sfx : String) :
    (stem ++ sfx ∉ fs → get_next_available_filename fs stem sfx = stem ++ sfx) ∧
    (stem ++ sfx ∈ fs → ∀ N : Nat, 2 ≤ N → mkName stem N sfx ∉ fs →
      (∀ M, 2 ≤ M → M < N → mkName stem M sfx ∈ fs) →
      get_next_available_filename fs stem sfx = mkName stem N sfx) := by
  constructor
  · intro h
    unfold get_next_available_filename
    rw [if_neg h]
  · intro hbase N h2 hfree hmin
    unfold get_next_available_filename
    rw [if_pos hbase]
    have hbnd := counters_bound fs stem sfx N h2 hmin
    exact searchFree_spec fs stem sfx (fs.length + 1) 2 N h2 (by omega) hfree
      (fun M h1 hM => hmin M h1 hM)

/-- Claim C8 witness: with `report.xlsx` and `report_2.xlsx` existing,
requesting `report.xlsx` yields `report_3.xlsx`. -/
theorem claim_C8_witness :
    get_next_available_filename ["report.xlsx", "report_2.xlsx"] "report" ".xlsx" =
      "report_3.xlsx" := by
  have h := (claim_C8_output_namer ["report.xlsx", "report_2.xlsx"] "report" ".xlsx").2
    (by decide) 3 (by decide) (by decide)
    (by intro M h1 h2; interval_cases M; decide)
  rw [h]
  decide

/-! ## Claim C10: the flag column and the wildcard format rule -/

/-- A successfully computed `Except` value is an `ok`. -/
theorem exists_ok_of_isOk {e : Except String GenResult} (h : e.isOk = true) :
    ∃ r : GenResult, e = .ok r := by
  cases e with
  | error err => simp [Except.isOk, Except.toBool] at h
  | ok r => exact ⟨r, rfl⟩

/-- Claim C10: whenever assembly reaches the format-rule derivation (the
generator returns successfully), the report's column list contains the
`Flag` column, its position lookup succeeds (index 9, Excel column J), the
rule-removal branch is not taken (all three rules survive), and the last
emitted rule is the wildcard whole-row formula rule with the populated
criteria. -/
theorem claim_C10_wildcard_rule_last (files : List FileDesc)
    (h : ∃ r, field_report_generator files = .ok r) :
    (field_report_generator files).map
      (fun r => (decide (FIELD_COL_FLAG ∈ r.report.columns),
                 List.indexOf? FIELD_COL_FLAG r.report.columns,
                 r.conditionalFormats.length,
                 (r.conditionalFormats.getLast?).map
                   (fun ru => (ru.kind, ru.columns, ru.criteria)))) =
      .ok (true, some 9, 3, some ("formula", ["*"], "=$J2=1")) := by
  obtain ⟨r, hr⟩ := h
  cases hres : genLoop .unbound files with
  | error e =>
    rw [field_report_generator, hres] at hr
    exact absurd hr (by simp [Except.bind])
  | ok results =>
    by_cases hemp : results.isEmpty
    · rw [field_report_generator, hres] at hr
      simp [Except.bind, hemp] at hr
    · rw [field_report_generator, hres]
      show Except.map _ (if results.isEmpty then _ else _) = _
      rw [if_neg hemp]
      rfl

/-- Claim C10 witness: the conclusion discharged at a concrete one-file
input on which the generator succeeds. -/
theorem claim_C10_witness :
    (field_report_generator [goodXlsx]).map
      (fun r => (decide (FIELD_COL_FLAG ∈ r.report.columns),
                 List.indexOf? FIELD_COL_FLAG r.report.columns,
                 r.conditionalFormats.length,
                 (r.conditionalFormats.getLast?).map
                   (fun ru => (ru.kind, ru.columns, ru.criteria)))) =
      .ok (true, some 9, 3, some ("formula", ["*"], "=$J2=1")) :=
  claim_C10_wildcard_rule_last [goodXlsx] (exists_ok_of_isOk (by decide))
